import Mathlib

/-!
Shallow embedding of the Taiwan township population-density map application
(`src/barplots.js`: the `BarPlots` module and the Leaflet application that
owns the global `state`).

Modelling conventions:
* A JavaScript `Set` of region identifiers is modelled as an insertion-ordered
  duplicate-free `List String`; `Set.add` appends when absent (`setAdd`),
  `Set.delete` removes the element (`setDelete`; on duplicate-free lists
  `List.filter` of the complement is exactly that removal).
* JavaScript numbers that hold populations, areas and densities are modelled
  as `ℚ`; `Math.round` is `jsRound` (round half up, as in JavaScript).
* `Date.now()` timestamps are modelled as `ℤ` milliseconds.
* DOM output is modelled structurally: a rendered chart is either a
  placeholder message or a list of bars plus the scroll flag, the stats panel
  is a count plus an optional summary block, an export is a toast, a failure,
  or a header row plus structured data rows.
-/

namespace TaiwanMap

/-- One entry of `population_data.json`: population, area (km²), density. -/
structure PopData where
  population : ℚ
  area : ℚ
  density : ℚ
deriving DecidableEq

/-- The merged properties of one GeoJSON feature.  `population`, `area` and
`density` are `none` for a region that has no matching population record
(`loadData` only copies them when `popData` exists). -/
structure FeatureProps where
  FULLNAME : String
  COUNTYNAME : String
  TOWNNAME : String
  population : Option ℚ
  area : Option ℚ
  density : Option ℚ
deriving DecidableEq

/-- The loaded dataset: `state.geojsonData.features` and
`state.populationData` (a map from full name to record). -/
structure Dataset where
  features : List FeatureProps
  popData : String → Option PopData

/-- `Set.add`: append the element when it is not yet a member. -/
def setAdd (s : List String) (x : String) : List String :=
  if x ∈ s then s else s ++ [x]

/-- `Set.delete`: remove the element (on duplicate-free lists this filter is
exactly the removal of the one occurrence). -/
def setDelete (s : List String) (x : String) : List String :=
  s.filter (fun y => decide (y ≠ x))

/-- `Math.round`: round half away from zero towards `+∞`, as JavaScript does. -/
def jsRound (x : ℚ) : ℤ :=
  ⌊x + 1 / 2⌋

/-- `selectTownship` (selection-set effect): `state.selectedTownships.add(fullname)`. -/
def selectTownship (sel : List String) (fullname : String) : List String :=
  setAdd sel fullname

/-- `deselectTownship` (selection-set effect): `state.selectedTownships.delete(fullname)`. -/
def deselectTownship (sel : List String) (fullname : String) : List String :=
  setDelete sel fullname

/-- `clearAllSelections` (selection-set effect): `state.selectedTownships.clear()`. -/
def clearAllSelections (_sel : List String) : List String :=
  []

/-- `selectAllTownships`: `selectTownship(feature.properties.FULLNAME, false)`
for every feature, in order. -/
def selectAllTownships (ds : Dataset) (sel : List String) : List String :=
  ds.features.foldl (fun s f => selectTownship s f.FULLNAME) sel

/-- The `countyTownships` array built at the start of `selectCounty`: the full
names of the features whose `COUNTYNAME` matches. -/
def countyTownships (ds : Dataset) (countyName : String) : List String :=
  (ds.features.filter (fun f => f.COUNTYNAME == countyName)).map (fun f => f.FULLNAME)

/-- `selectCounty`: if every member township is already selected, deselect them
all; otherwise select every not-yet-selected member. -/
def selectCounty (ds : Dataset) (countyName : String) (sel : List String) : List String :=
  let ct := countyTownships ds countyName
  let allSelected := ct.all (fun n => decide (n ∈ sel))
  if allSelected then
    ct.foldl (fun s n => deselectTownship s n) sel
  else
    ct.foldl (fun s n => if n ∈ s then s else selectTownship s n) sel

/-- The full-name key space of the loaded dataset. -/
def regionKeys (ds : Dataset) : List String :=
  ds.features.map (fun f => f.FULLNAME)

theorem mem_setAdd (s : List String) (x y : String) :
    y ∈ setAdd s x ↔ y ∈ s ∨ y = x := by
  unfold setAdd
  by_cases h : x ∈ s
  · simp only [if_pos h]
    constructor
    · exact fun hy => Or.inl hy
    · rintro (hy | rfl)
      · exact hy
      · exact h
  · simp [if_neg h]

theorem mem_setDelete (s : List String) (x y : String) :
    y ∈ setDelete s x ↔ y ∈ s ∧ y ≠ x := by
  simp [setDelete]

theorem mem_foldl_deselect (l s : List String) (y : String) :
    y ∈ l.foldl (fun s n => deselectTownship s n) s ↔ y ∈ s ∧ y ∉ l := by
  induction l generalizing s with
  | nil => simp
  | cons a t ih =>
      rw [List.foldl_cons, ih]
      simp only [deselectTownship, mem_setDelete, List.mem_cons]
      tauto

theorem mem_foldl_selectGuard (l s : List String) (y : String) :
    y ∈ l.foldl (fun s n => if n ∈ s then s else selectTownship s n) s ↔
      y ∈ s ∨ y ∈ l := by
  induction l generalizing s with
  | nil => simp
  | cons a t ih =>
      rw [List.foldl_cons, ih]
      by_cases h : a ∈ s
      · rw [if_pos h]
        simp only [List.mem_cons]
        constructor
        · exact fun hy => Or.elim hy Or.inl (fun ht => Or.inr (Or.inr ht))
        · rintro (hy | rfl | ht)
          · exact Or.inl hy
          · exact Or.inl h
          · exact Or.inr ht
      · rw [if_neg h]
        simp only [selectTownship, mem_setAdd, List.mem_cons]
        tauto

/-- Membership characterisation of `selectCounty`: toggle-off removes exactly
the county members, toggle-on adds exactly the county members. -/
theorem selectCounty_mem (ds : Dataset) (c : String) (sel : List String) (y : String) :
    y ∈ selectCounty ds c sel ↔
      (if (countyTownships ds c).all (fun n => decide (n ∈ sel)) then
        y ∈ sel ∧ y ∉ countyTownships ds c
      else
        y ∈ sel ∨ y ∈ countyTownships ds c) := by
  simp only [selectCounty]
  by_cases h : (countyTownships ds c).all (fun n => decide (n ∈ sel)) = true
  · rw [if_pos h, if_pos h, mem_foldl_deselect]
  · rw [if_neg h, if_neg h, mem_foldl_selectGuard]

/-! ## Aggregate statistics (`updateStats`) -/

/-- The summary block shown when at least one region is selected. -/
structure SummaryStats where
  population : ℚ
  area : ℚ
  density : ℤ
deriving DecidableEq

/-- The stats panel: the selection count is always shown; the summary block is
shown only when the count is positive (`summaryStats.style.display`). -/
structure StatsView where
  count : Nat
  summary : Option SummaryStats
deriving DecidableEq

/-- `updateStats`: recompute the displayed aggregate statistics.  The source
accumulates `totalPopulation` and `totalArea` in one `forEach` over the
selection, skipping regions with no population record; the two folds here are
that same accumulation, one field at a time. -/
def updateStats (ds : Dataset) (sel : List String) : StatsView :=
  let count := sel.length
  if 0 < count then
    let totalPopulation : ℚ :=
      sel.foldl (fun acc n =>
        match ds.popData n with
        | some d => acc + d.population
        | none => acc) 0
    let totalArea : ℚ :=
      sel.foldl (fun acc n =>
        match ds.popData n with
        | some d => acc + d.area
        | none => acc) 0
    let avgDensity : ℤ :=
      if 0 < totalArea then jsRound (totalPopulation / totalArea) else 0
    { count := count
      summary := some { population := totalPopulation, area := totalArea, density := avgDensity } }
  else
    { count := count, summary := none }

/-- Sum of the stored populations over the selected regions that have a
matching population record. -/
def selectionPopulationSum (ds : Dataset) (sel : List String) : ℚ :=
  (sel.filterMap (fun n => (ds.popData n).map (fun d => d.population))).sum

/-- Sum of the stored areas over the selected regions that have a matching
population record. -/
def selectionAreaSum (ds : Dataset) (sel : List String) : ℚ :=
  (sel.filterMap (fun n => (ds.popData n).map (fun d => d.area))).sum

theorem foldl_population_eq (ds : Dataset) (sel : List String) (a : ℚ) :
    sel.foldl (fun acc n =>
        match ds.popData n with
        | some d => acc + d.population
        | none => acc) a = a + selectionPopulationSum ds sel := by
  induction sel generalizing a with
  | nil => simp [selectionPopulationSum]
  | cons h t ih =>
      cases hpd : ds.popData h with
      | none =>
          simp only [List.foldl_cons, hpd]
          rw [ih]
          simp [selectionPopulationSum, hpd]
      | some d =>
          simp only [List.foldl_cons, hpd]
          rw [ih]
          simp [selectionPopulationSum, hpd]
          ring

theorem foldl_area_eq (ds : Dataset) (sel : List String) (a : ℚ) :
    sel.foldl (fun acc n =>
        match ds.popData n with
        | some d => acc + d.area
        | none => acc) a = a + selectionAreaSum ds sel := by
  induction sel generalizing a with
  | nil => simp [selectionAreaSum]
  | cons h t ih =>
      cases hpd : ds.popData h with
      | none =>
          simp only [List.foldl_cons, hpd]
          rw [ih]
          simp [selectionAreaSum, hpd]
      | some d =>
          simp only [List.foldl_cons, hpd]
          rw [ih]
          simp [selectionAreaSum, hpd]
          ring

/-! ## Click handling (`handleClick`, `handleDoubleClick`) -/

/-- `DOUBLE_CLICK_THRESHOLD` in milliseconds. -/
def DOUBLE_CLICK_THRESHOLD : ℤ := 300

/-- The part of the global `state` that the click handlers read and write. -/
structure ClickState where
  selected : List String
  lastClickTime : ℤ
  lastClickedTownship : Option String
deriving DecidableEq

/-- `handleClick`: a click within the double-click window on the same township
returns early (the `dblclick` event handles it); otherwise the click time and
township are recorded and the township is selected when not yet selected. -/
def handleClick (st : ClickState) (fullname : String) (currentTime : ℤ) : ClickState :=
  if st.lastClickedTownship = some fullname ∧
      currentTime - st.lastClickTime < DOUBLE_CLICK_THRESHOLD then
    st
  else
    { selected :=
        if fullname ∈ st.selected then st.selected else selectTownship st.selected fullname
      lastClickTime := currentTime
      lastClickedTownship := some fullname }

/-- `handleDoubleClick`: deselect the township when it is selected (and prevent
the map's default double-click zoom, which has no selection-set effect). -/
def handleDoubleClick (st : ClickState) (fullname : String) : ClickState :=
  if fullname ∈ st.selected then
    { st with selected := deselectTownship st.selected fullname }
  else
    st

/-! ## Color bucket mapping (`getColor`) and feature style (`styleFeature`) -/

/-- `COLOR_GRADES`: ascending density thresholds. -/
def COLOR_GRADES : List ℚ := [0, 10, 500, 1000, 2000, 5000, 10000, 20000, 30000]

/-- `COLOR_PALETTE`: the colors parallel to `COLOR_GRADES`. -/
def COLOR_PALETTE : List String :=
  ["#ffffff", "#f9ece8", "#f3d9d1", "#e8bfb1", "#d9a08c",
   "#ca8167", "#bb6242", "#aa4c2c", "#aa4c2c"]

/-- The index found by `getColor`'s downward loop, starting the scan at `i`:
the largest `j ≤ i` with `density ≥ COLOR_GRADES[j]`, and `0` when the loop
falls through. -/
def bucketIdxFrom (density : ℚ) : Nat → Nat
  | 0 => 0
  | i + 1 => if COLOR_GRADES.getD (i + 1) 0 ≤ density then i + 1 else bucketIdxFrom density i

/-- The bucket index `getColor` returns the palette entry of. -/
def bucketIdx (density : ℚ) : Nat :=
  bucketIdxFrom density (COLOR_GRADES.length - 1)

/-- `getColor`'s loop from index `i` down to `0`: return `COLOR_PALETTE[j]` at
the first `j` with `density ≥ COLOR_GRADES[j]`; past the loop return
`COLOR_PALETTE[0]`. -/
def getColorFrom (density : ℚ) : Nat → String
  | 0 =>
      if COLOR_GRADES.getD 0 0 ≤ density then COLOR_PALETTE.getD 0 ""
      else COLOR_PALETTE.getD 0 ""
  | i + 1 =>
      if COLOR_GRADES.getD (i + 1) 0 ≤ density then COLOR_PALETTE.getD (i + 1) ""
      else getColorFrom density i

/-- `getColor`: scan `COLOR_GRADES` from the top down. -/
def getColor (density : ℚ) : String :=
  getColorFrom density (COLOR_GRADES.length - 1)

/-- `BORDER_UNSELECTED` / `BORDER_SELECTED`. -/
structure BorderStyle where
  weight : ℚ
  color : String
  opacity : ℚ
deriving DecidableEq

def BORDER_UNSELECTED : BorderStyle := { weight := 1, color := "#cccccc", opacity := 0.8 }

def BORDER_SELECTED : BorderStyle := { weight := 3, color := "#000000", opacity := 1 }

/-- The style object returned by `styleFeature`. -/
structure FeatureStyle where
  fillColor : String
  weight : ℚ
  opacity : ℚ
  color : String
  fillOpacity : ℚ
deriving DecidableEq

/-- `styleFeature`: fill color from the density bucket (`density || 0` reads a
missing density as `0`), border from selection membership. -/
def styleFeature (sel : List String) (feature : FeatureProps) : FeatureStyle :=
  let isSelected := feature.FULLNAME ∈ sel
  let density := feature.density.getD 0
  { fillColor := getColor density
    weight := if isSelected then BORDER_SELECTED.weight else BORDER_UNSELECTED.weight
    opacity := if isSelected then BORDER_SELECTED.opacity else BORDER_UNSELECTED.opacity
    color := if isSelected then BORDER_SELECTED.color else BORDER_UNSELECTED.color
    fillOpacity := 0.8 }

/-! ## Export (`exportData`) -/

/-- One structured data row of the exported CSV (the object pushed onto
`data`), field for field. -/
structure ExportRow where
  Township : String
  County : String
  District : String
  Population : ℚ
  Area_km2 : ℚ
  Density : ℚ
deriving DecidableEq

/-- `Object.keys(data[0])` for an export row object: the keys in literal
insertion order. -/
def EXPORT_HEADERS : List String :=
  ["Township", "County", "District", "Population", "Area_km2", "Density"]

/-- The outcome of `exportData`: a toast and no file on empty selection, a
runtime failure when `data` ends up empty (`Object.keys(data[0])` on
`undefined`), or a download of the header row plus the data rows. -/
inductive ExportOutcome where
  | emptyToast
  | failure
  | csv (headers : List String) (rows : List ExportRow)
deriving DecidableEq

/-- The row `exportData` builds for one selected full name: present exactly
when both the geometry feature and the population record exist. -/
def exportRow (ds : Dataset) (fullname : String) : Option ExportRow :=
  match ds.features.find? (fun f => f.FULLNAME == fullname), ds.popData fullname with
  | some feature, some popData =>
      some { Township := fullname
             County := feature.COUNTYNAME
             District := feature.TOWNNAME
             Population := popData.population
             Area_km2 := popData.area
             Density := popData.density }
  | _, _ => none

/-- `exportData`: toast on empty selection; otherwise collect one row per
selected region that has both a feature and a population record (the
`if (feature && popData)` guard), and emit the header plus those rows. -/
def exportData (ds : Dataset) (sel : List String) : ExportOutcome :=
  if sel.length = 0 then
    ExportOutcome.emptyToast
  else
    let data := sel.filterMap (fun n => exportRow ds n)
    match data with
    | [] => ExportOutcome.failure
    | r :: rs => ExportOutcome.csv EXPORT_HEADERS (r :: rs)

/-! ## Bar charts (`BarPlots.update`, `renderChart`, `updateBarPlots`) -/

/-- One element of the `selectedData` array handed to `BarPlots.update`. -/
structure BarDatum where
  name : String
  population : ℚ
  density : ℚ
  area : ℚ
deriving DecidableEq

/-- `config.maxVisibleBars`. -/
def maxVisibleBars : Nat := 15

/-- What `renderChart` draws: the empty-state placeholder prompt, or the bars
in order together with the `needsScroll` layout flag. -/
inductive ChartRender where
  | placeholder (msg : String)
  | bars (data : List BarDatum) (needsScroll : Bool)
deriving DecidableEq

/-- `renderChart` (for a container of positive size): placeholder on empty
data, else the bars with `needsScroll = numBars > config.maxVisibleBars`. -/
def renderChart (data : List BarDatum) : ChartRender :=
  if data.length = 0 then
    ChartRender.placeholder "請選擇鄉鎮市區"
  else
    ChartRender.bars data (decide (maxVisibleBars < data.length))

/-- The comparator `(a, b) => b.density - a.density` as a `Bool` "may come
before" relation: `a` may precede `b` when the comparator is `≤ 0`. -/
def densityDescLe (a b : BarDatum) : Bool :=
  decide (b.density ≤ a.density)

/-- The comparator `(a, b) => b.population - a.population` likewise. -/
def populationDescLe (a b : BarDatum) : Bool :=
  decide (b.population ≤ a.population)

/-- `BarPlots.update`: sort copies of the data by descending density and by
descending population (a stable sort, as `Array.prototype.sort` is), and
render the two charts. -/
def BarPlotsUpdate (data : List BarDatum) : ChartRender × ChartRender :=
  let densityData := data.mergeSort densityDescLe
  let populationData := data.mergeSort populationDescLe
  (renderChart densityData, renderChart populationData)

/-- `updateBarPlots`: collect `{name, population, density, area}` for every
selected region that has a population record, in selection order, and hand the
array to `BarPlots.update`. -/
def updateBarPlots (ds : Dataset) (sel : List String) : List BarDatum :=
  sel.filterMap (fun fullname =>
    (ds.popData fullname).map (fun d =>
      { name := fullname, population := d.population, density := d.density, area := d.area }))

/-! ## Concrete datasets used as witnesses and counterexamples -/

/-- A dataset whose county `c1` has exactly the two townships `a` and `b`,
neither with a population record. -/
def dsPair : Dataset :=
  { features :=
      [{ FULLNAME := "a", COUNTYNAME := "c1", TOWNNAME := "tA"
         population := none, area := none, density := none },
       { FULLNAME := "b", COUNTYNAME := "c1", TOWNNAME := "tB"
         population := none, area := none, density := none }]
    popData := fun _ => none }

/-! ## Selection algebra: claims C1, C2, C9 -/

theorem selectCounty_mem_of_all (ds : Dataset) (c : String) (sel : List String)
    (h : ∀ n ∈ countyTownships ds c, n ∈ sel) (x : String) :
    x ∈ selectCounty ds c sel ↔ x ∈ sel ∧ x ∉ countyTownships ds c := by
  rw [selectCounty_mem, if_pos (by simpa using h)]

theorem selectCounty_mem_of_not_all (ds : Dataset) (c : String) (sel : List String)
    (h : ¬ ∀ n ∈ countyTownships ds c, n ∈ sel) (x : String) :
    x ∈ selectCounty ds c sel ↔ x ∈ sel ∨ x ∈ countyTownships ds c := by
  rw [selectCounty_mem, if_neg (by simpa using h)]

/-- C1: for every county name and prior selection state, `selectCounty` is one
logical toggle: when every member township of the county is already selected it
removes exactly those members, and otherwise the result holds exactly the old
selection together with every member of the county (already-selected members
stay selected). -/
theorem claim1_selectCounty_toggle (ds : Dataset) (c : String) (sel : List String) :
    ((∀ n ∈ countyTownships ds c, n ∈ sel) →
      ∀ x, x ∈ selectCounty ds c sel ↔ x ∈ sel ∧ x ∉ countyTownships ds c) ∧
    ((¬ ∀ n ∈ countyTownships ds c, n ∈ sel) →
      ∀ x, x ∈ selectCounty ds c sel ↔ x ∈ sel ∨ x ∈ countyTownships ds c) :=
  ⟨fun h => selectCounty_mem_of_all ds c sel h,
   fun h => selectCounty_mem_of_not_all ds c sel h⟩

theorem claim1_witness :
    "a" ∈ selectCounty dsPair "c1" ["a", "b"] ↔
      "a" ∈ ["a", "b"] ∧ "a" ∉ countyTownships dsPair "c1" :=
  (claim1_selectCounty_toggle dsPair "c1" ["a", "b"]).1 (by decide) "a"

/-- C2 fails as stated: on a dataset whose county `c1` has the two townships
`a` and `b`, starting from the partial selection `["a"]`, the first
`selectCounty` selects both and the second deselects both, so `a` is lost. -/
theorem claim2_counterexample :
    "a" ∈ ["a"] ∧
      "a" ∉ selectCounty dsPair "c1" (selectCounty dsPair "c1" ["a"]) := by
  decide

/-- C2 (amended): applying `selectCounty` twice in succession returns the
selection to its prior membership state provided the county was either fully
selected or had no selected member before the first call; on partially
selected counties the double application deselects the whole county instead. -/
theorem claim2_selectCounty_involution_amended (ds : Dataset) (c : String)
    (sel : List String)
    (h : (∀ n ∈ countyTownships ds c, n ∈ sel) ∨ (∀ n ∈ countyTownships ds c, n ∉ sel)) :
    ∀ x, x ∈ selectCounty ds c (selectCounty ds c sel) ↔ x ∈ sel := by
  intro x
  rcases hct : countyTownships ds c with _ | ⟨n₀, rest⟩
  · have h1 : ∀ n ∈ countyTownships ds c, n ∈ sel := by rw [hct]; simp
    have h2 : ∀ n ∈ countyTownships ds c, n ∈ selectCounty ds c sel := by rw [hct]; simp
    rw [selectCounty_mem_of_all ds c _ h2, selectCounty_mem_of_all ds c sel h1, hct]
    simp
  · have hmem : n₀ ∈ countyTownships ds c := by rw [hct]; exact List.mem_cons_self n₀ rest
    rcases h with hfull | hnone
    · have hfirst : ∀ y, y ∈ selectCounty ds c sel ↔ y ∈ sel ∧ y ∉ countyTownships ds c :=
        selectCounty_mem_of_all ds c sel hfull
      have hnotall : ¬ ∀ n ∈ countyTownships ds c, n ∈ selectCounty ds c sel := by
        intro hall
        exact ((hfirst n₀).mp (hall n₀ hmem)).2 hmem
      rw [selectCounty_mem_of_not_all ds c _ hnotall x, hfirst x]
      constructor
      · rintro (⟨hs, _⟩ | hc)
        · exact hs
        · exact hfull x hc
      · intro hs
        by_cases hc : x ∈ countyTownships ds c
        · exact Or.inr hc
        · exact Or.inl ⟨hs, hc⟩
    · have hnotall1 : ¬ ∀ n ∈ countyTownships ds c, n ∈ sel := by
        intro hall
        exact hnone n₀ hmem (hall n₀ hmem)
      have hfirst : ∀ y, y ∈ selectCounty ds c sel ↔ y ∈ sel ∨ y ∈ countyTownships ds c :=
        selectCounty_mem_of_not_all ds c sel hnotall1
      have hall2 : ∀ n ∈ countyTownships ds c, n ∈ selectCounty ds c sel := by
        intro n hn
        exact (hfirst n).mpr (Or.inr hn)
      rw [selectCounty_mem_of_all ds c _ hall2 x, hfirst x]
      constructor
      · rintro ⟨hs | hc, hnc⟩
        · exact hs
        · exact absurd hc hnc
      · intro hs
        exact ⟨Or.inl hs, fun hc => hnone x hc hs⟩

theorem claim2_witness :
    "a" ∈ selectCounty dsPair "c1" (selectCounty dsPair "c1" ["a", "b"]) ↔
      "a" ∈ ["a", "b"] :=
  claim2_selectCounty_involution_amended dsPair "c1" ["a", "b"] (Or.inl (by decide)) "a"

/-- C9: `deselectTownship` is idempotent: deselecting an unselected id leaves
the selection unchanged, and deselecting twice equals deselecting once. -/
theorem claim9_deselect_idempotent (sel : List String) (fullname : String) :
    (fullname ∉ sel → deselectTownship sel fullname = sel) ∧
    deselectTownship (deselectTownship sel fullname) fullname =
      deselectTownship sel fullname := by
  constructor
  · intro h
    unfold deselectTownship setDelete
    rw [List.filter_eq_self]
    intro a ha
    simp only [decide_eq_true_eq]
    exact fun hEq => h (hEq ▸ ha)
  · unfold deselectTownship setDelete
    rw [List.filter_filter]
    simp

theorem claim9_witness :
    (deselectTownship ["a", "b"] "z" = ["a", "b"]) ∧
    deselectTownship (deselectTownship ["a", "b"] "a") "a" =
      deselectTownship ["a", "b"] "a" :=
  ⟨(claim9_deselect_idempotent ["a", "b"] "z").1 (by decide),
   (claim9_deselect_idempotent ["a", "b"] "a").2⟩

/-! ## Aggregate statistics: claim C3 -/

/-- The spec's scenario dataset: region `A` with population 100 over 10 km²,
region `B` with population 400 over 20 km², plus a region `C` present in the
geometry without a population record. -/
def dsSpec : Dataset :=
  { features :=
      [{ FULLNAME := "A", COUNTYNAME := "c1", TOWNNAME := "tA"
         population := some 100, area := some 10, density := some 10 },
       { FULLNAME := "B", COUNTYNAME := "c1", TOWNNAME := "tB"
         population := some 400, area := some 20, density := some 20 },
       { FULLNAME := "C", COUNTYNAME := "c2", TOWNNAME := "tC"
         population := none, area := none, density := none }]
    popData := fun n =>
      if n = "A" then some { population := 100, area := 10, density := 10 }
      else if n = "B" then some { population := 400, area := 20, density := 20 }
      else none }

/-- C3: after every selection mutation the recomputed statistics satisfy:
the count is the selection size; with a non-empty selection the summary's
population and area are the sums of the stored attributes over the selected
regions that have a population record (regions without a record contribute
nothing), and the average density is `round(population / area)` when the area
sum is positive and `0` otherwise; with an empty selection no summary is
shown. -/
theorem claim3_updateStats_sums (ds : Dataset) (sel : List String) :
    (updateStats ds sel).count = sel.length ∧
    (sel = [] → (updateStats ds sel).summary = none) ∧
    (sel ≠ [] →
      (updateStats ds sel).summary =
        some { population := selectionPopulationSum ds sel
               area := selectionAreaSum ds sel
               density :=
                 if 0 < selectionAreaSum ds sel then
                   jsRound (selectionPopulationSum ds sel / selectionAreaSum ds sel)
                 else 0 }) := by
  refine ⟨?_, ?_, ?_⟩
  · simp only [updateStats]
    split <;> rfl
  · intro h
    subst h
    rfl
  · intro h
    have hlen : 0 < sel.length := List.length_pos.mpr h
    simp only [updateStats, if_pos hlen]
    rw [foldl_population_eq, foldl_area_eq, zero_add, zero_add]

theorem claim3_witness :
    (updateStats dsSpec ["A", "B"]).summary =
      some { population := selectionPopulationSum dsSpec ["A", "B"]
             area := selectionAreaSum dsSpec ["A", "B"]
             density :=
               if 0 < selectionAreaSum dsSpec ["A", "B"] then
                 jsRound (selectionPopulationSum dsSpec ["A", "B"] / selectionAreaSum dsSpec ["A", "B"])
               else 0 } ∧
    selectionPopulationSum dsSpec ["A", "B"] = 500 ∧
    selectionAreaSum dsSpec ["A", "B"] = 30 ∧
    jsRound (500 / 30 : ℚ) = 17 :=
  ⟨(claim3_updateStats_sums dsSpec ["A", "B"]).2.2 (by decide),
   by
     have hA : dsSpec.popData "A" = some { population := 100, area := 10, density := 10 } := by
       simp [dsSpec]
     have hB : dsSpec.popData "B" = some { population := 400, area := 20, density := 20 } := by
       simp [dsSpec, String.reduceEq]
     unfold selectionPopulationSum
     rw [List.filterMap_cons, hA, List.filterMap_cons, hB]
     norm_num,
   by
     have hA : dsSpec.popData "A" = some { population := 100, area := 10, density := 10 } := by
       simp [dsSpec]
     have hB : dsSpec.popData "B" = some { population := 400, area := 20, density := 20 } := by
       simp [dsSpec, String.reduceEq]
     unfold selectionAreaSum
     rw [List.filterMap_cons, hA, List.filterMap_cons, hB]
     norm_num,
   by norm_num [jsRound]⟩

/-! ## Click gestures: claim C4 -/

theorem handleDoubleClick_selected (st : ClickState) (fullname : String) :
    (handleDoubleClick st fullname).selected = setDelete st.selected fullname := by
  unfold handleDoubleClick
  by_cases h : fullname ∈ st.selected
  · rw [if_pos h]
    rfl
  · rw [if_neg h]
    symm
    unfold setDelete
    rw [List.filter_eq_self]
    intro a ha
    simp only [decide_eq_true_eq]
    exact fun hEq => h (hEq ▸ ha)

theorem selectGuard_eq_setAdd (s : List String) (x : String) :
    (if x ∈ s then s else selectTownship s x) = setAdd s x := by
  unfold selectTownship setAdd
  by_cases h : x ∈ s
  · rw [if_pos h, if_pos h]
  · rw [if_neg h, if_neg h]

/-- C4: a click that is not the second click of a double-click gesture selects
the region when unselected and leaves it selected when already selected; a
double click removes the region when selected, never adds anything, and always
leaves the region unselected; hence click–click–dblclick on the same region
within the 300 ms window ends with the region unselected, while a single click
alone leaves it selected. -/
theorem claim4_click_gestures (st : ClickState) (fullname : String) (t0 t1 : ℤ)
    (hfresh : ¬ (st.lastClickedTownship = some fullname ∧
      t0 - st.lastClickTime < DOUBLE_CLICK_THRESHOLD))
    (hwin : t1 - t0 < DOUBLE_CLICK_THRESHOLD) :
    ((handleClick st fullname t0).selected = setAdd st.selected fullname ∧
      fullname ∈ (handleClick st fullname t0).selected) ∧
    (∀ st' : ClickState,
      (handleDoubleClick st' fullname).selected = setDelete st'.selected fullname ∧
      fullname ∉ (handleDoubleClick st' fullname).selected ∧
      ∀ y ∈ (handleDoubleClick st' fullname).selected, y ∈ st'.selected) ∧
    fullname ∉
      (handleDoubleClick (handleClick (handleClick st fullname t0) fullname t1)
        fullname).selected := by
  have hclick : handleClick st fullname t0 =
      { selected := setAdd st.selected fullname
        lastClickTime := t0
        lastClickedTownship := some fullname } := by
    unfold handleClick
    rw [if_neg hfresh, selectGuard_eq_setAdd]
  have hdbl : ∀ st' : ClickState,
      (handleDoubleClick st' fullname).selected = setDelete st'.selected fullname ∧
      fullname ∉ (handleDoubleClick st' fullname).selected ∧
      ∀ y ∈ (handleDoubleClick st' fullname).selected, y ∈ st'.selected := by
    intro st'
    refine ⟨handleDoubleClick_selected st' fullname, ?_, ?_⟩
    · rw [handleDoubleClick_selected, mem_setDelete]
      exact fun hmem => hmem.2 rfl
    · intro y hy
      rw [handleDoubleClick_selected, mem_setDelete] at hy
      exact hy.1
  refine ⟨⟨by rw [hclick], ?_⟩, hdbl, ?_⟩
  · rw [hclick]
    exact (mem_setAdd st.selected fullname fullname).mpr (Or.inr rfl)
  · have hsecond : handleClick (handleClick st fullname t0) fullname t1 =
        handleClick st fullname t0 := by
      rw [hclick]
      unfold handleClick
      rw [if_pos ⟨rfl, hwin⟩]
    rw [hsecond]
    exact (hdbl (handleClick st fullname t0)).2.1

theorem claim4_witness :
    "a" ∉
      (handleDoubleClick
        (handleClick (handleClick { selected := [], lastClickTime := 0, lastClickedTownship := none }
          "a" 1000) "a" 1100) "a").selected :=
  (claim4_click_gestures
    { selected := [], lastClickTime := 0, lastClickedTownship := none }
    "a" 1000 1100 (by decide) (by decide)).2.2

/-! ## Selection-set invariant: claim C7 -/

theorem countyTownships_subset_regionKeys (ds : Dataset) (c : String) :
    ∀ x ∈ countyTownships ds c, x ∈ regionKeys ds := by
  intro x hx
  simp only [countyTownships, List.mem_map, List.mem_filter] at hx
  obtain ⟨f, ⟨hf, _⟩, rfl⟩ := hx
  exact List.mem_map_of_mem _ hf

theorem mem_foldl_selectTownship (l : List FeatureProps) (s : List String) (y : String) :
    y ∈ l.foldl (fun s f => selectTownship s f.FULLNAME) s ↔
      y ∈ s ∨ y ∈ l.map (fun f => f.FULLNAME) := by
  induction l generalizing s with
  | nil => simp
  | cons a t ih =>
      rw [List.foldl_cons, ih]
      simp only [selectTownship, mem_setAdd, List.map_cons, List.mem_cons]
      tauto

/-- C7: every selection-mutating operation keeps the selection inside the full
region key space: adding an existing region's name, deselecting, select-all,
clear, and select-county all map a selection of known keys to a selection of
known keys. -/
theorem claim7_selection_invariant (ds : Dataset) (sel : List String)
    (fullname county : String) (hsel : ∀ x ∈ sel, x ∈ regionKeys ds) :
    (fullname ∈ regionKeys ds →
      ∀ x ∈ selectTownship sel fullname, x ∈ regionKeys ds) ∧
    (∀ x ∈ deselectTownship sel fullname, x ∈ regionKeys ds) ∧
    (∀ x ∈ selectAllTownships ds sel, x ∈ regionKeys ds) ∧
    (∀ x ∈ clearAllSelections sel, x ∈ regionKeys ds) ∧
    (∀ x ∈ selectCounty ds county sel, x ∈ regionKeys ds) := by
  refine ⟨?_, ?_, ?_, ?_, ?_⟩
  · intro hkey x hx
    rcases (mem_setAdd sel fullname x).mp hx with h | rfl
    · exact hsel x h
    · exact hkey
  · intro x hx
    exact hsel x ((mem_setDelete sel fullname x).mp hx).1
  · intro x hx
    rcases (mem_foldl_selectTownship ds.features sel x).mp hx with h | h
    · exact hsel x h
    · exact h
  · intro x hx
    simp [clearAllSelections] at hx
  · intro x hx
    rw [selectCounty_mem] at hx
    by_cases hall : (countyTownships ds county).all (fun n => decide (n ∈ sel)) = true
    · rw [if_pos hall] at hx
      exact hsel x hx.1
    · rw [if_neg hall] at hx
      rcases hx with h | h
      · exact hsel x h
      · exact countyTownships_subset_regionKeys ds county x h

theorem claim7_witness :
    "a" ∈ regionKeys dsPair :=
  (claim7_selection_invariant dsPair ["a"] "b" "c1" (by decide)).2.2.2.2
    "a" (by decide)

/-! ## Color buckets: claims C6, C10 -/

theorem COLOR_GRADES_getD_nonneg (j : Nat) : (0:ℚ) ≤ COLOR_GRADES.getD j 0 := by
  by_cases h : j < COLOR_GRADES.length
  · rw [List.getD_eq_getElem _ _ h]
    have hall : ∀ x ∈ COLOR_GRADES, (0:ℚ) ≤ x := by decide
    exact hall _ (List.getElem_mem h)
  · rw [List.getD_eq_default _ _ (Nat.le_of_not_lt h)]

theorem getColorFrom_eq_palette (d : ℚ) :
    ∀ i, getColorFrom d i = COLOR_PALETTE.getD (bucketIdxFrom d i) "" := by
  intro i
  induction i with
  | zero => simp [getColorFrom, bucketIdxFrom]
  | succ n ih =>
      unfold getColorFrom bucketIdxFrom
      by_cases h : COLOR_GRADES.getD (n + 1) 0 ≤ d
      · rw [if_pos h, if_pos h]
      · rw [if_neg h, if_neg h, ih]

theorem getColor_eq_palette (d : ℚ) :
    getColor d = COLOR_PALETTE.getD (bucketIdx d) "" :=
  getColorFrom_eq_palette d (COLOR_GRADES.length - 1)

theorem bucketIdxFrom_grade_le (d : ℚ) (hd : 0 ≤ d) :
    ∀ i, COLOR_GRADES.getD (bucketIdxFrom d i) 0 ≤ d := by
  intro i
  induction i with
  | zero =>
      have h0 : COLOR_GRADES.getD 0 0 = (0:ℚ) := by decide
      rw [bucketIdxFrom, h0]
      exact hd
  | succ n ih =>
      unfold bucketIdxFrom
      by_cases h : COLOR_GRADES.getD (n + 1) 0 ≤ d
      · rw [if_pos h]
        exact h
      · rw [if_neg h]
        exact ih

theorem bucketIdxFrom_le (d : ℚ) : ∀ i, bucketIdxFrom d i ≤ i := by
  intro i
  induction i with
  | zero => exact Nat.le_refl 0
  | succ n ih =>
      unfold bucketIdxFrom
      by_cases h : COLOR_GRADES.getD (n + 1) 0 ≤ d
      · rw [if_pos h]
      · rw [if_neg h]
        exact Nat.le_succ_of_le ih

theorem bucketIdxFrom_maximal (d : ℚ) :
    ∀ i j, j ≤ i → COLOR_GRADES.getD j 0 ≤ d → j ≤ bucketIdxFrom d i := by
  intro i
  induction i with
  | zero =>
      intro j hj _
      rw [bucketIdxFrom]
      exact hj
  | succ n ih =>
      intro j hj hgrade
      unfold bucketIdxFrom
      by_cases h : COLOR_GRADES.getD (n + 1) 0 ≤ d
      · rw [if_pos h]
        exact hj
      · rw [if_neg h]
        rcases Nat.lt_or_ge j (n + 1) with hlt | hge
        · exact ih j (Nat.lt_succ_iff.mp hlt) hgrade
        · exact absurd hgrade (by rw [Nat.le_antisymm hj hge]; exact h)

theorem bucketIdxFrom_mono (d₁ d₂ : ℚ) (hd : d₁ ≤ d₂) :
    ∀ i, bucketIdxFrom d₁ i ≤ bucketIdxFrom d₂ i := by
  intro i
  induction i with
  | zero => exact Nat.le_refl 0
  | succ n ih =>
      unfold bucketIdxFrom
      by_cases h1 : COLOR_GRADES.getD (n + 1) 0 ≤ d₁
      · rw [if_pos h1, if_pos (le_trans h1 hd)]
      · rw [if_neg h1]
        by_cases h2 : COLOR_GRADES.getD (n + 1) 0 ≤ d₂
        · rw [if_pos h2]
          exact Nat.le_succ_of_le (bucketIdxFrom_le d₁ n)
        · rw [if_neg h2]
          exact ih

theorem getColor_zero : getColor 0 = COLOR_PALETTE.getD 0 "" := by decide

theorem bucketIdx_neg_eq_zero (d : ℚ) (hd : d < 0) : bucketIdx d = 0 := by
  have h : ∀ i, bucketIdxFrom d i = 0 := by
    intro i
    induction i with
    | zero => rfl
    | succ n ih =>
        unfold bucketIdxFrom
        rw [if_neg, ih]
        intro hle
        exact absurd (lt_of_le_of_lt (le_trans (COLOR_GRADES_getD_nonneg (n + 1)) hle) hd)
          (lt_irrefl 0)
  exact h _

/-- C6: `getColor` returns the palette entry of the bucket index; for
non-negative density the bucket index is the largest `i` with
`d ≥ COLOR_GRADES[i]`; `getColor 0` is the first palette color; the bucket
index is monotone non-decreasing in the density; and a negative density falls
into the first bucket, as if it were `0`. -/
theorem claim6_getColor_buckets (d : ℚ) :
    getColor d = COLOR_PALETTE.getD (bucketIdx d) "" ∧
    (0 ≤ d →
      COLOR_GRADES.getD (bucketIdx d) 0 ≤ d ∧
      ∀ j < COLOR_GRADES.length, COLOR_GRADES.getD j 0 ≤ d → j ≤ bucketIdx d) ∧
    getColor 0 = COLOR_PALETTE.getD 0 "" ∧
    (∀ d₂, d ≤ d₂ → bucketIdx d ≤ bucketIdx d₂) ∧
    (d < 0 → getColor d = getColor 0 ∧ getColor d = COLOR_PALETTE.getD 0 "") := by
  refine ⟨getColor_eq_palette d, ?_, getColor_zero, ?_, ?_⟩
  · intro hd
    refine ⟨bucketIdxFrom_grade_le d hd _, ?_⟩
    intro j hj hgrade
    exact bucketIdxFrom_maximal d (COLOR_GRADES.length - 1)
      j (Nat.le_of_lt_succ (by simpa using hj)) hgrade
  · intro d₂ hd
    exact bucketIdxFrom_mono d d₂ hd _
  · intro hd
    have h0 : getColor d = COLOR_PALETTE.getD 0 "" := by
      rw [getColor_eq_palette d, bucketIdx_neg_eq_zero d hd]
    exact ⟨by rw [h0, getColor_zero], h0⟩

theorem claim6_witness :
    COLOR_GRADES.getD (bucketIdx 700) 0 ≤ (700:ℚ) ∧
    getColor 700 = COLOR_PALETTE.getD (bucketIdx 700) "" :=
  ⟨((claim6_getColor_buckets 700).2.1 (by norm_num)).1,
   (claim6_getColor_buckets 700).1⟩

/-- C10: a region whose merged density attribute is missing is styled with the
fill color of density `0`, the first palette color, not left uncolored. -/
theorem claim10_missing_density_style (sel : List String) (feature : FeatureProps)
    (h : feature.density = none) :
    (styleFeature sel feature).fillColor = getColor 0 ∧
    (styleFeature sel feature).fillColor = COLOR_PALETTE.getD 0 "" := by
  have hfill : (styleFeature sel feature).fillColor = getColor 0 := by
    simp only [styleFeature, h, Option.getD_none]
  exact ⟨hfill, by rw [hfill, getColor_zero]⟩

/-- A feature whose merged attributes are all missing. -/
def featureNoRecord : FeatureProps :=
  { FULLNAME := "x", COUNTYNAME := "c", TOWNNAME := "t"
    population := none, area := none, density := none }

theorem claim10_witness :
    (styleFeature [] featureNoRecord).fillColor = COLOR_PALETTE.getD 0 "" :=
  (claim10_missing_density_style [] featureNoRecord rfl).2

/-! ## Export: claim C5 -/

theorem exportRow_township (ds : Dataset) (n : String) (r : ExportRow)
    (h : exportRow ds n = some r) : r.Township = n := by
  unfold exportRow at h
  rcases hf : ds.features.find? (fun f => f.FULLNAME == n) with _ | f
  all_goals rcases hp : ds.popData n with _ | p
  all_goals rw [hf, hp] at h
  · exact absurd h (by simp)
  · exact absurd h (by simp)
  · exact absurd h (by simp)
  · have h' : ExportRow.mk n f.COUNTYNAME f.TOWNNAME p.population p.area p.density = r := by
      simpa using h
    rw [← h']

theorem exportRows_map_township (ds : Dataset) (sel : List String) :
    (sel.filterMap (fun n => exportRow ds n)).map (fun r => r.Township) =
      sel.filter (fun n => (exportRow ds n).isSome) := by
  induction sel with
  | nil => rfl
  | cons n t ih =>
      rcases h : exportRow ds n with _ | r
      · simp [List.filterMap_cons, List.filter_cons, h, ih]
      · simp [List.filterMap_cons, List.filter_cons, h, ih, exportRow_township ds n r h]

theorem exportRows_attributes (ds : Dataset) (sel : List String) :
    ∀ r ∈ sel.filterMap (fun n => exportRow ds n), exportRow ds r.Township = some r := by
  intro r hr
  rcases List.mem_filterMap.mp hr with ⟨n, _, hn⟩
  rw [exportRow_township ds n r hn]
  exact hn

/-- C5 fails as stated: on the spec's dataset with region `C` present in the
geometry but absent from the population data, exporting the two selected
regions `A` and `C` produces a CSV with a single data row (for `A`), not one
row per selected region. -/
theorem claim5_counterexample :
    ["A", "C"].length = 2 ∧
    exportData dsSpec ["A", "C"] =
      ExportOutcome.csv EXPORT_HEADERS
        [{ Township := "A", County := "c1", District := "tA"
           Population := 100, Area_km2 := 10, Density := 10 }] := by
  exact ⟨rfl, by decide⟩

/-- C5 (amended): an export with an empty selection produces no file and shows
a notice; with a non-empty selection it produces a CSV whose first row is the
header `Township,County,District,Population,Area_km2,Density` followed by
exactly one data row per currently selected region that has both a geometry
feature and a population record, carrying that region's stored attributes;
selected regions without such data are omitted, and when no selected region
qualifies the export fails instead of producing a file. -/
theorem claim5_export_amended (ds : Dataset) (sel : List String) :
    (sel = [] → exportData ds sel = ExportOutcome.emptyToast) ∧
    (sel ≠ [] → sel.filterMap (fun n => exportRow ds n) = [] →
      exportData ds sel = ExportOutcome.failure) ∧
    (sel ≠ [] → sel.filterMap (fun n => exportRow ds n) ≠ [] →
      exportData ds sel =
        ExportOutcome.csv EXPORT_HEADERS (sel.filterMap (fun n => exportRow ds n)) ∧
      (sel.filterMap (fun n => exportRow ds n)).map (fun r => r.Township) =
        sel.filter (fun n => (exportRow ds n).isSome) ∧
      ∀ r ∈ sel.filterMap (fun n => exportRow ds n), exportRow ds r.Township = some r) := by
  refine ⟨?_, ?_, ?_⟩
  · intro h
    subst h
    rfl
  · intro hne hdata
    simp only [exportData]
    rw [if_neg (fun h0 => hne (List.length_eq_zero.mp h0)), hdata]
  · intro hne hsome
    refine ⟨?_, exportRows_map_township ds sel, exportRows_attributes ds sel⟩
    simp only [exportData]
    rw [if_neg (fun h0 => hne (List.length_eq_zero.mp h0))]
    rcases hdata : sel.filterMap (fun n => exportRow ds n) with _ | ⟨r, rs⟩
    · exact absurd hdata hsome
    · rfl

theorem claim5_witness :
    exportData dsSpec [] = ExportOutcome.emptyToast ∧
    exportData dsSpec ["C"] = ExportOutcome.failure ∧
    exportData dsSpec ["A"] =
      ExportOutcome.csv EXPORT_HEADERS (["A"].filterMap (fun n => exportRow dsSpec n)) :=
  ⟨(claim5_export_amended dsSpec []).1 rfl,
   (claim5_export_amended dsSpec ["C"]).2.1 (by decide) (by decide),
   ((claim5_export_amended dsSpec ["A"]).2.2 (by decide) (by decide)).1⟩

/-! ## Bar charts: claim C8 -/

theorem updateBarPlots_map_name (ds : Dataset) (sel : List String) :
    (updateBarPlots ds sel).map (fun d => d.name) =
      sel.filter (fun n => (ds.popData n).isSome) := by
  induction sel with
  | nil => rfl
  | cons n t ih =>
      unfold updateBarPlots at ih ⊢
      rcases h : ds.popData n with _ | p
      · simp [List.filterMap_cons, List.filter_cons, h, ih]
      · simp [List.filterMap_cons, List.filter_cons, h, ih]

theorem densityDescLe_trans : ∀ a b c : BarDatum,
    densityDescLe a b = true → densityDescLe b c = true → densityDescLe a c = true := by
  intro a b c hab hbc
  simp only [densityDescLe, decide_eq_true_eq] at hab hbc ⊢
  exact le_trans hbc hab

theorem densityDescLe_total : ∀ a b : BarDatum,
    (densityDescLe a b || densityDescLe b a) = true := by
  intro a b
  simp only [densityDescLe, Bool.or_eq_true, decide_eq_true_eq]
  exact le_total b.density a.density

theorem populationDescLe_trans : ∀ a b c : BarDatum,
    populationDescLe a b = true → populationDescLe b c = true →
      populationDescLe a c = true := by
  intro a b c hab hbc
  simp only [populationDescLe, decide_eq_true_eq] at hab hbc ⊢
  exact le_trans hbc hab

theorem populationDescLe_total : ∀ a b : BarDatum,
    (populationDescLe a b || populationDescLe b a) = true := by
  intro a b
  simp only [populationDescLe, Bool.or_eq_true, decide_eq_true_eq]
  exact le_total b.population a.population

/-- The bar datum `updateBarPlots` builds for the spec's region `A`. -/
def barDatumA : BarDatum :=
  { name := "A", population := 100, density := 10, area := 10 }

/-- C8 fails as stated: on the spec's dataset with region `C` present in the
geometry but absent from the population data, selecting `A` and `C` renders
both charts with a single bar (for `A`), not one bar per selected region. -/
theorem claim8_counterexample :
    "C" ∈ ["A", "C"] ∧
    BarPlotsUpdate (updateBarPlots dsSpec ["A", "C"]) =
      (ChartRender.bars [barDatumA] false, ChartRender.bars [barDatumA] false) := by
  refine ⟨by decide, ?_⟩
  have hdata : updateBarPlots dsSpec ["A", "C"] = [barDatumA] := by decide
  have hms : ∀ le : BarDatum → BarDatum → Bool, [barDatumA].mergeSort le = [barDatumA] :=
    fun le => List.perm_singleton.mp (List.mergeSort_perm [barDatumA] le)
  rw [hdata]
  simp only [BarPlotsUpdate]
  rw [hms densityDescLe, hms populationDescLe]
  rfl

/-- C8 (amended): on every update the bar-chart view renders two charts over
exactly the currently selected regions that have a matching population record:
one a permutation of those regions sorted by density in non-increasing order,
the other sorted by population in non-increasing order; when no such region is
selected both charts render the placeholder prompt; and each rendered chart
scrolls exactly when its number of bars exceeds 15. -/
theorem claim8_barplots_amended (ds : Dataset) (sel : List String) :
    (updateBarPlots ds sel).map (fun d => d.name) =
      sel.filter (fun n => (ds.popData n).isSome) ∧
    (updateBarPlots ds sel = [] →
      BarPlotsUpdate (updateBarPlots ds sel) =
        (ChartRender.placeholder "請選擇鄉鎮市區",
         ChartRender.placeholder "請選擇鄉鎮市區")) ∧
    (updateBarPlots ds sel ≠ [] →
      ∃ dd pd : List BarDatum,
        BarPlotsUpdate (updateBarPlots ds sel) =
          (ChartRender.bars dd (decide (maxVisibleBars < dd.length)),
           ChartRender.bars pd (decide (maxVisibleBars < pd.length))) ∧
        dd.Perm (updateBarPlots ds sel) ∧ pd.Perm (updateBarPlots ds sel) ∧
        dd.Pairwise (fun a b => b.density ≤ a.density) ∧
        pd.Pairwise (fun a b => b.population ≤ a.population)) := by
  refine ⟨updateBarPlots_map_name ds sel, ?_, ?_⟩
  · intro h
    rw [h]
    simp only [BarPlotsUpdate]
    rw [List.mergeSort_nil, List.mergeSort_nil]
    rfl
  · intro h
    refine ⟨(updateBarPlots ds sel).mergeSort densityDescLe,
            (updateBarPlots ds sel).mergeSort populationDescLe, ?_, ?_, ?_, ?_, ?_⟩
    · have hlenD : ¬ ((updateBarPlots ds sel).mergeSort densityDescLe).length = 0 := by
        rw [(List.mergeSort_perm (updateBarPlots ds sel) densityDescLe).length_eq]
        exact fun h0 => h (List.length_eq_zero.mp h0)
      have hlenP : ¬ ((updateBarPlots ds sel).mergeSort populationDescLe).length = 0 := by
        rw [(List.mergeSort_perm (updateBarPlots ds sel) populationDescLe).length_eq]
        exact fun h0 => h (List.length_eq_zero.mp h0)
      simp only [BarPlotsUpdate, renderChart]
      rw [if_neg hlenD, if_neg hlenP]
    · exact List.mergeSort_perm (updateBarPlots ds sel) densityDescLe
    · exact List.mergeSort_perm (updateBarPlots ds sel) populationDescLe
    · exact (List.sorted_mergeSort densityDescLe_trans densityDescLe_total
        (updateBarPlots ds sel)).imp
          (fun hab => by simpa [densityDescLe] using hab)
    · exact (List.sorted_mergeSort populationDescLe_trans populationDescLe_total
        (updateBarPlots ds sel)).imp
          (fun hab => by simpa [populationDescLe] using hab)

theorem claim8_witness :
    BarPlotsUpdate (updateBarPlots dsSpec []) =
      (ChartRender.placeholder "請選擇鄉鎮市區",
       ChartRender.placeholder "請選擇鄉鎮市區") :=
  (claim8_barplots_amended dsSpec []).2.1 rfl

end TaiwanMap
